import Mathlib

/-!
Shallow embedding of the normalized, reactive GraphQL object cache described
by the repository specification (spec.md).  The repository snapshot ships the
cache's test suite (src/src/__tests__/ApolloClient.ts) together with the spec,
but not the cache implementation itself (src/cache of the original project),
so every operational definition below is modelled from the spec's words and
cross-checked against the concrete expectations recorded in the test suite.
-/

namespace ApolloCache

/-- Scalar (JSON-like) values: the leaves of GraphQL response data, and the
resolved values of field arguments. -/
inductive ScalarValue where
  | null
  | b (bv : Bool)
  | i (iv : Int)
  | s (sv : String)
deriving DecidableEq, Repr

/-- Decimal rendering of an integer (used by the argument serializer). -/
def intRepr : Int → String
  | .ofNat n => Nat.repr n
  | .negSucc n => "-" ++ Nat.repr (n + 1)

/-- An opening brace as string data. -/
def obr : String := "\x7b"

/-- A closing brace as string data. -/
def cbr : String := "\x7d"

/-- A double quote as string data. -/
def qm : String := "\""

/-- A single quote (apostrophe) as string data. -/
def apos : String := "\x27"

/-- Modelled from the spec: the JSON-style rendering of a resolved argument
value used by the StorageKeyCodec (§4.1, missing from src/). -/
def renderScalar : ScalarValue → String
  | .null => "null"
  | .b true => "true"
  | .b false => "false"
  | .i n => intRepr n
  | .s str => qm ++ str ++ qm

/-- Rendering of an id value inside an EntityKey: strings and numbers are used
verbatim (the tests store entity `Item:5` for `id: 5`). -/
def renderId : ScalarValue → String
  | .null => "null"
  | .b true => "true"
  | .b false => "false"
  | .i n => intRepr n
  | .s str => str

/-- Association-list lookup by string key (first match wins). -/
def lookupStr {α : Type} : List (String × α) → String → Option α
  | [], _ => none
  | (k, v) :: rest, key => if k = key then some v else lookupStr rest key

/-- Lexicographic comparison of character lists by code point. -/
def strListLt : List Char → List Char → Bool
  | [], [] => false
  | [], _ :: _ => true
  | _ :: _, [] => false
  | a :: as, b :: bs =>
    if a.toNat < b.toNat then true
    else if b.toNat < a.toNat then false
    else strListLt as bs

/-- Boolean string ordering used to sort argument names canonically. -/
def strLtB (a b : String) : Bool := strListLt a.data b.data

/-- Insert an argument into a name-sorted argument list. -/
def insertArg (p : String × ScalarValue) :
    List (String × ScalarValue) → List (String × ScalarValue)
  | [] => [p]
  | x :: xs => if strLtB x.1 p.1 then x :: insertArg p xs else p :: x :: xs

/-- Sort resolved arguments by argument name (insertion sort), giving the
order-independent serialization the spec requires (§3 FieldStorageKey). -/
def sortArgs : List (String × ScalarValue) → List (String × ScalarValue)
  | [] => []
  | p :: ps => insertArg p (sortArgs ps)

/-- Comma-join of rendered `"name":value` argument entries. -/
def renderArgEntries : List (String × ScalarValue) → String
  | [] => ""
  | [(k, v)] => qm ++ k ++ qm ++ ":" ++ renderScalar v
  | (k, v) :: rest =>
    qm ++ k ++ qm ++ ":" ++ renderScalar v ++ "," ++ renderArgEntries rest

/-- Modelled from the spec: `fieldKey(name, args)` of the StorageKeyCodec
(§4.1, missing from src/): the field name followed by a canonical JSON
serialization of its resolved arguments with keys sorted; a field with no
surviving arguments is keyed by its bare name. -/
def fieldKeyOfResolved (name : String) (resolved : List (String × ScalarValue)) : String :=
  match resolved with
  | [] => name
  | _ => name ++ "(" ++ obr ++ renderArgEntries (sortArgs resolved) ++ cbr ++ ")"

/-- How a field argument is written in the query document: as a literal value
or as a reference to a variable. -/
inductive ArgSource where
  | lit (v : ScalarValue)
  | var (name : String)
deriving DecidableEq, Repr

/-- A variables mapping supplied with an operation. -/
abbrev Vars := List (String × ScalarValue)

/-- Variable declarations of the operation: variable name paired with its
optional declared default value. -/
abbrev VarDefs := List (String × Option ScalarValue)

/-- Modelled from the spec: resolution of one argument (§4.1, missing from
src/): a literal is used as written; an argument sourced from a variable uses
the variable's runtime value, falling back to the declared default when the
variable is unset; `none` means the argument value is undefined and the
argument is omitted. -/
def resolveArg (vars : Vars) (defs : VarDefs) : ArgSource → Option ScalarValue
  | .lit v => some v
  | .var n =>
    match lookupStr vars n with
    | some v => some v
    | none =>
      match lookupStr defs n with
      | some (some d) => some d
      | _ => none

/-- Resolve all arguments of a field, omitting the undefined ones. -/
def resolveArgs (vars : Vars) (defs : VarDefs) :
    List (String × ArgSource) → List (String × ScalarValue)
  | [] => []
  | (n, a) :: rest =>
    match resolveArg vars defs a with
    | some v => (n, v) :: resolveArgs vars defs rest
    | none => resolveArgs vars defs rest

/-- The FieldStorageKey of a field occurrence under the given variables. -/
def storeFieldName (vars : Vars) (defs : VarDefs) (name : String)
    (args : List (String × ArgSource)) : String :=
  fieldKeyOfResolved name (resolveArgs vars defs args)

/- GraphQL response data trees (the input of the Writer and the output of the
Reader), as a mutual inductive family so that decidable equality is
derivable. -/
mutual
inductive DataValue where
  | scalar (v : ScalarValue)
  | obj (fields : DataFields)
  | arr (items : DataList)
deriving DecidableEq, Repr
inductive DataFields where
  | nil
  | cons (name : String) (v : DataValue) (rest : DataFields)
deriving DecidableEq, Repr
inductive DataList where
  | nil
  | cons (v : DataValue) (rest : DataList)
deriving DecidableEq, Repr
end

/-- Lookup of a response-object field by response name. -/
def dfLookup : DataFields → String → Option DataValue
  | .nil, _ => none
  | .cons k v rest, key => if k = key then some v else dfLookup rest key

/- Stored values inside a normalized entity record (§3 StoreObject): a
scalar, a Reference to another entity by EntityKey, an inline non-identifiable
nested object, or an order-preserving list. -/
mutual
inductive StoredValue where
  | scalar (v : ScalarValue)
  | ref (key : String)
  | inline (fields : StoreFields)
  | arr (items : StoreList)
deriving DecidableEq, Repr
inductive StoreFields where
  | nil
  | cons (k : String) (v : StoredValue) (rest : StoreFields)
deriving DecidableEq, Repr
inductive StoreList where
  | nil
  | cons (v : StoredValue) (rest : StoreList)
deriving DecidableEq, Repr
end

/-- Lookup of a stored field by FieldStorageKey. -/
def sfLookup : StoreFields → String → Option StoredValue
  | .nil, _ => none
  | .cons k v rest, key => if k = key then some v else sfLookup rest key

/-- The base store: a mapping from EntityKey to its normalized record. -/
abbrev Store := List (String × StoreFields)

/-- Resolve one (EntityKey, FieldStorageKey) pair through the store. -/
def lookupField (st : Store) (k f : String) : Option StoredValue :=
  (lookupStr st k).bind (fun o => sfLookup o f)

/-- Modelled from the spec: the built-in entity-identity fallback of the
IdentityResolver (§4.1 (c), missing from src/): requires `__typename` to be
present together with one of `id`/`_id`; when `__typename` is absent it never
identifies the object, regardless of `id`/`_id`. -/
def defaultDataIdFromObject (fields : DataFields) : Option String :=
  match dfLookup fields "__typename" with
  | some (.scalar (.s t)) =>
    match dfLookup fields "id" with
    | some (.scalar v) => some (t ++ ":" ++ renderId v)
    | _ =>
      match dfLookup fields "_id" with
      | some (.scalar v) => some (t ++ ":" ++ renderId v)
      | _ => none
  | _ => none

/-- One selected field of a parsed selection set (§6): an optional response
alias, the schema field name, the written arguments, whether the field is
marked `@nonreactive`, and an optional nested selection set. -/
inductive Selection where
  | field (al : Option String) (name : String) (args : List (String × ArgSource))
      (nonreactive : Bool) (sub : Option (List Selection))

/-- The response name of a selected field: its alias when present, otherwise
its schema name. -/
def responseName (al : Option String) (name : String) : String :=
  match al with
  | some a => a
  | none => name

/-- Replace the value stored under `k` in a record, preserving field order, or
append the field when it is new. -/
def sfPut (o : StoreFields) (k : String) (v : StoredValue) : StoreFields :=
  match o with
  | .nil => .cons k v .nil
  | .cons k' v' rest => if k' = k then .cons k' v rest else .cons k' v' (sfPut rest k v)

/-- Field-by-field merge of an incoming sparse record into an existing one:
incoming fields overwrite, untouched existing fields survive (§4.2 default
merge policy). -/
def sfMerge (old : StoreFields) : StoreFields → StoreFields
  | .nil => old
  | .cons k v rest => sfMerge (sfPut old k v) rest

/-- Merge an incoming record for EntityKey `k` into the store: an existing
entity with the same key is merged in place (never duplicated); a new key is
appended (§3: two objects with the same EntityKey are the same entity). -/
def storeMerge (st : Store) (k : String) (o : StoreFields) : Store :=
  match st with
  | [] => [(k, o)]
  | (k', o') :: rest =>
    if k' = k then (k', sfMerge o' o) :: rest else (k', o') :: storeMerge rest k o

/- Verbatim conversion of a data tree into a stored value, used for fields
selected without a subselection (plain scalars and scalar lists). -/
mutual
def toStored : DataValue → StoredValue
  | .scalar v => .scalar v
  | .obj f => .inline (toStoredFields f)
  | .arr l => .arr (toStoredList l)
def toStoredFields : DataFields → StoreFields
  | .nil => .nil
  | .cons k v rest => .cons k (toStored v) (toStoredFields rest)
def toStoredList : DataList → StoreList
  | .nil => .nil
  | .cons v rest => .cons (toStored v) (toStoredList rest)
end

/- Modelled from the spec: the Writer (§4.2, missing from src/).  It walks the
selection set and the incoming data tree in lockstep, computing each field's
FieldStorageKey; an identifiable child object is normalized into its own
entity record and stored as a Reference in the parent, a non-identifiable one
is stored inline, and lists are written element by element preserving order.
The `fuel` argument bounds the recursion depth so that every definition stays
structurally recursive; all theorems below supply sufficient fuel. -/
mutual
def writeValue (fuel : Nat) (sub : Option (List Selection)) (vars : Vars)
    (defs : VarDefs) (v : DataValue) (st : Store) : StoredValue × Store :=
  match fuel with
  | 0 => (.scalar .null, st)
  | fuel + 1 =>
    match sub with
    | none => (toStored v, st)
    | some sel =>
      match v with
      | .scalar sv => (.scalar sv, st)
      | .arr items => writeList fuel (some sel) vars defs items st
      | .obj f =>
        match defaultDataIdFromObject f with
        | some k =>
          let (o, st') := writeFields fuel sel vars defs f st
          (.ref k, storeMerge st' k o)
        | none =>
          let (o, st') := writeFields fuel sel vars defs f st
          (.inline o, st')
def writeList (fuel : Nat) (sub : Option (List Selection)) (vars : Vars)
    (defs : VarDefs) (items : DataList) (st : Store) : StoredValue × Store :=
  match fuel with
  | 0 => (.scalar .null, st)
  | fuel + 1 =>
    match items with
    | .nil => (.arr .nil, st)
    | .cons v rest =>
      let (sv, st') := writeValue fuel sub vars defs v st
      match writeList fuel sub vars defs rest st' with
      | (.arr l, st'') => (.arr (.cons sv l), st'')
      | (_, st'') => (.arr (.cons sv .nil), st'')
def writeFields (fuel : Nat) (sel : List Selection) (vars : Vars)
    (defs : VarDefs) (data : DataFields) (st : Store) : StoreFields × Store :=
  match fuel with
  | 0 => (.nil, st)
  | fuel + 1 =>
    match sel with
    | [] => (.nil, st)
    | .field al name args _ sub :: rest =>
      match dfLookup data (responseName al name) with
      | none => writeFields fuel rest vars defs data st
      | some v =>
        let fk := storeFieldName vars defs name args
        let (sv, st') := writeValue fuel sub vars defs v st
        let (o, st'') := writeFields fuel rest vars defs data st'
        (.cons fk sv o, st'')
end

/-- The mutable cache state: the base store plus the extra-root set (§3) of
EntityKeys written directly by id. -/
structure Cache where
  store : Store
  extraRootIds : List String
deriving DecidableEq, Repr

/-- The empty cache. -/
def emptyCache : Cache := { store := [], extraRootIds := [] }

/-- Register an EntityKey in the extra-root set (idempotently). -/
def insertRootId (ids : List String) (k : String) : List String :=
  if k ∈ ids then ids else ids ++ [k]

/-- `writeQuery`: normalize a data tree against a selection set rooted at the
synthetic `ROOT_QUERY` entity, which always records `__typename: "Query"`. -/
def writeQuery (fuel : Nat) (sel : List Selection) (vars : Vars) (defs : VarDefs)
    (data : DataFields) (c : Cache) : Cache :=
  let (o, st') := writeFields fuel sel vars defs data c.store
  { store := storeMerge st' "ROOT_QUERY" (.cons "__typename" (.scalar (.s "Query")) o),
    extraRootIds := c.extraRootIds }

/-- `writeFragment` at an explicit EntityKey: normalize the data against the
fragment's selection rooted at that entity, and register the entity in the
extra-root set so GC retains it (§3 extra root set). -/
def writeFragmentAt (fuel : Nat) (k : String) (sel : List Selection) (vars : Vars)
    (defs : VarDefs) (data : DataFields) (c : Cache) : Cache :=
  let (o, st') := writeFields fuel sel vars defs data c.store
  { store := storeMerge st' k o,
    extraRootIds := insertRootId c.extraRootIds k }

/-- The extracted snapshot (§6 `extract`): the full base store plus the
`__META` entry listing the extra root ids. -/
structure Snapshot where
  entities : Store
  metaExtraRootIds : List String
deriving DecidableEq, Repr

/-- `extract() -> full base store snapshot plus extra-root-id list`. -/
def extract (c : Cache) : Snapshot :=
  { entities := c.store, metaExtraRootIds := c.extraRootIds }

/-- A fragment definition of a user-supplied fragment document. -/
structure FragmentDef where
  name : String
  typeCondition : String
  sel : List Selection

/-- Modelled from the spec: fragment resolution of a user-supplied fragment
document (§4.2/§7, missing from src/): without an explicit fragment name the
document must hold exactly one fragment, otherwise the operation fails before
touching the store, with an error message stating the count found. -/
def resolveFragment (doc : List FragmentDef) :
    Option String → Except String FragmentDef
  | some n =>
    match doc.find? (fun f => f.name = n) with
    | some f => .ok f
    | none => .error ("No fragment named " ++ n ++ ".")
  | none =>
    match doc with
    | [f] => .ok f
    | _ =>
      .error ("Found " ++ Nat.repr doc.length ++
        " fragments. `fragmentName` must be provided when there is not exactly 1 fragment.")

/-- `writeFragment` against a user-supplied fragment document: resolve the
fragment first; on failure the error is thrown to the caller and the cache is
returned unchanged inside the error path (nothing is written). -/
def clientWriteFragment (fuel : Nat) (doc : List FragmentDef)
    (fragmentName : Option String) (k : String) (vars : Vars) (defs : VarDefs)
    (data : DataFields) (c : Cache) : Except String Cache :=
  match resolveFragment doc fragmentName with
  | .error e => .error e
  | .ok f => .ok (writeFragmentAt fuel k f.sel vars defs data c)

/-- One entry of a read's dependency set (§3 Watcher): either a
(EntityKey, FieldStorageKey) pair that was consulted, or the existence of an
entity that was consulted while resolving a Reference. -/
inductive Dep where
  | fieldDep (key fk : String)
  | entityDep (key : String)
deriving DecidableEq, Repr

/-- The missing-field message of the Reader (§4.3): `Can't find field '<fk>'
on <EntityKey> object`. -/
def cantFindMsg (fk entity : String) : String :=
  "Can" ++ apos ++ "t find field " ++ apos ++ fk ++ apos ++ " on " ++ entity ++ " object"

/-- The dangling-reference message of the Reader (§4.3): `Dangling reference
to missing <EntityKey> object`. -/
def danglingMsg (k : String) : String :=
  "Dangling reference to missing " ++ k ++ " object"

/- Verbatim conversion of a stored value back into a data tree, used for
fields read without a subselection. -/
mutual
def fromStored : StoredValue → DataValue
  | .scalar v => .scalar v
  | .ref k => .scalar (.s k)
  | .inline f => .obj (fromStoredFields f)
  | .arr l => .arr (fromStoredList l)
def fromStoredFields : StoreFields → DataFields
  | .nil => .nil
  | .cons k v rest => .cons k (fromStored v) (fromStoredFields rest)
def fromStoredList : StoreList → DataList
  | .nil => .nil
  | .cons v rest => .cons (fromStored v) (fromStoredList rest)
end

/- Modelled from the spec: the Reader (§4.3, missing from src/).  It walks a
selection set against a store record, resolving References through the store;
a dangling Reference or an absent field produces a structured `missing` entry
instead of an exception; every consulted (EntityKey, FieldStorageKey) pair is
recorded as a dependency, except under fields marked `@nonreactive`, which
still contribute to `data` and to completeness.

`readValue` reads one stored value under an optional subselection and yields
either a field-level missing message or the value together with the missing
entries of its subtree (path-prefixed); `readObj` reads a whole selection
against a record, with `depKey = some k` when the record is entity `k`'s and
`none` when it is an inline object already owned by a parent field. -/
mutual
def readValue (fuel : Nat) (sub : Option (List Selection)) (vars : Vars)
    (defs : VarDefs) (label : String) (sv : StoredValue) (st : Store) :
    Except String (DataValue × List (String × String)) × List Dep :=
  match fuel with
  | 0 => (.error "insufficient fuel", [])
  | fuel + 1 =>
    match sub with
    | none => (.ok (fromStored sv, []), [])
    | some sel =>
      match sv with
      | .scalar v => (.ok (.scalar v, []), [])
      | .inline f =>
        let r := readObj fuel sel vars defs none label f st
        (.ok (.obj r.1, r.2.1), r.2.2)
      | .arr items =>
        let r := readList fuel (some sel) vars defs label items st
        (match r.1 with
         | .error e => .error e
         | .ok (l, m) => .ok (.arr l, m), r.2)
      | .ref k =>
        match lookupStr st k with
        | none => (.error (danglingMsg k), [.entityDep k])
        | some o =>
          let r := readObj fuel sel vars defs (some k) k o st
          (.ok (.obj r.1, r.2.1), .entityDep k :: r.2.2)
def readList (fuel : Nat) (sub : Option (List Selection)) (vars : Vars)
    (defs : VarDefs) (label : String) (items : StoreList) (st : Store) :
    Except String (DataList × List (String × String)) × List Dep :=
  match fuel with
  | 0 => (.error "insufficient fuel", [])
  | fuel + 1 =>
    match items with
    | .nil => (.ok (.nil, []), [])
    | .cons v rest =>
      let r1 := readValue fuel sub vars defs label v st
      let r2 := readList fuel sub vars defs label rest st
      (match r1.1, r2.1 with
       | .error e, _ => .error e
       | _, .error e => .error e
       | .ok (dv, m1), .ok (l, m2) => .ok (.cons dv l, m1 ++ m2), r1.2 ++ r2.2)
def readObj (fuel : Nat) (sel : List Selection) (vars : Vars) (defs : VarDefs)
    (depKey : Option String) (label : String) (o : StoreFields) (st : Store) :
    DataFields × List (String × String) × List Dep :=
  match fuel with
  | 0 => (.nil, [], [])
  | fuel + 1 =>
    match sel with
    | [] => (.nil, [], [])
    | .field al name args nonreactive sub :: rest =>
      let rn := responseName al name
      let fk := storeFieldName vars defs name args
      let fdep : List Dep :=
        match depKey with
        | some k => if nonreactive then [] else [.fieldDep k fk]
        | none => []
      let r := readObj fuel rest vars defs depKey label o st
      match sfLookup o fk with
      | none => (r.1, (rn, cantFindMsg fk label) :: r.2.1, fdep ++ r.2.2)
      | some sv =>
        let rv := readValue fuel sub vars defs label sv st
        let subdeps := if nonreactive then [] else rv.2
        let inner :=
          match rv.1 with
          | .error msg => (r.1, (rn, msg) :: r.2.1)
          | .ok (dv, subm) =>
            (.cons rn dv r.1,
             subm.map (fun (p : String × String) => (rn ++ "." ++ p.1, p.2)) ++ r.2.1)
        (inner.1, inner.2, fdep ++ subdeps ++ r.2.2)
end

/-- The shape of a read result's missing report: a single message when the
root itself could not be resolved, or a per-field map of messages. -/
inductive MissingInfo where
  | msg (m : String)
  | fields (entries : List (String × String))
deriving DecidableEq, Repr

/-- The result delivered for a watched fragment: the (possibly partial) data,
the completeness flag, and the missing report when incomplete. -/
structure FragmentResult where
  data : DataFields
  complete : Bool
  missing : Option MissingInfo
deriving DecidableEq, Repr

/-- `diff` of a fragment rooted at EntityKey `k` (§4.3/§6): resolving a root
absent from the store yields empty data, `complete := false` and a
dangling-reference message — it does not throw; otherwise the fields are read
and `complete` holds exactly when nothing was missing.  Also returns the
dependency set of the read. -/
def diffFragment (fuel : Nat) (sel : List Selection) (vars : Vars)
    (defs : VarDefs) (k : String) (st : Store) : FragmentResult × List Dep :=
  match lookupStr st k with
  | none =>
    ({ data := .nil, complete := false, missing := some (.msg (danglingMsg k)) },
     [.entityDep k])
  | some o =>
    let r := readObj fuel sel vars defs (some k) k o st
    ({ data := r.1,
       complete := r.2.1.isEmpty,
       missing := if r.2.1.isEmpty then none else some (.fields r.2.1) },
     .entityDep k :: r.2.2)

/-- `readFragment` against a user-supplied fragment document: fragment
resolution failures are thrown to the caller before any store access. -/
def clientReadFragment (fuel : Nat) (doc : List FragmentDef)
    (fragmentName : Option String) (k : String) (vars : Vars) (defs : VarDefs)
    (c : Cache) : Except String FragmentResult :=
  match resolveFragment doc fragmentName with
  | .error e => .error e
  | .ok f => .ok (diffFragment fuel f.sel vars defs k c.store).1

/-- A live watcher (§3): its selection, variables, root EntityKey, the last
delivered result and the dependency set recorded while producing it. -/
structure Watcher where
  sel : List Selection
  vars : Vars
  defs : VarDefs
  rootKey : String
  last : FragmentResult
  deps : List Dep

/-- Whether a dependency's observable state differs between two stores: a
field dependency changed when the stored value under its
(EntityKey, FieldStorageKey) pair differs, an entity dependency changed when
the entity's existence differs. -/
def depChanged (old new : Store) : Dep → Bool
  | .fieldDep k f => decide (¬ lookupField old k f = lookupField new k f)
  | .entityDep k => decide (¬ (lookupStr old k).isSome = (lookupStr new k).isSome)

/-- Modelled from the spec: the WatchBroadcaster's per-watcher pass after a
write batch (§4.5, missing from src/): if none of the watcher's dependencies
changed, the watcher is left alone; otherwise the Reader is re-run against
the new store and a notification carrying the new result is delivered exactly
when it differs from the last delivered result. -/
def notifyWrite (fuel : Nat) (w : Watcher) (old new : Store) :
    Option FragmentResult :=
  if w.deps.any (depChanged old new) then
    let r := (diffFragment fuel w.sel w.vars w.defs w.rootKey new).1
    if r = w.last then none else some r
  else none

/- The recursive all-fields-reactive predicate on selections, shaped to track
the Reader's fuel discipline level by level: `arV` mirrors `readValue`, `arL`
mirrors `readList`, and `arO` mirrors `readObj`. -/
mutual
def arV : Nat → Option (List Selection) → Bool
  | 0, _ => true
  | _ + 1, none => true
  | fuel + 1, some sel => arO fuel sel && arL fuel (some sel)
def arL : Nat → Option (List Selection) → Bool
  | 0, _ => true
  | fuel + 1, sub => arV fuel sub && arL fuel sub
def arO : Nat → List Selection → Bool
  | 0, _ => true
  | _ + 1, [] => true
  | fuel + 1, .field _ _ _ nonreactive sub :: rest =>
    !nonreactive && arV fuel sub && arO fuel rest
end

/-- Agreement of two stores on one dependency: the observable state the
dependency denotes is the same in both. -/
def depAgree (st st' : Store) : Dep → Prop
  | .fieldDep k f => lookupField st k f = lookupField st' k f
  | .entityDep k => (lookupStr st k).isSome = (lookupStr st' k).isSome

/-- The relation between the record arguments of two `readObj` calls and their
stores: an entity record is the store's record for its key on each side, an
inline record is the very same value on both sides. -/
def keyHyp : Option String → StoreFields → StoreFields → Store → Store → Prop
  | some k, o, o', st, st' => lookupStr st k = some o ∧ lookupStr st' k = some o'
  | none, o, o', _, _ => o' = o

/-- `readQuery`: a read rooted at the synthetic `ROOT_QUERY` entity. -/
def readQuery (fuel : Nat) (sel : List Selection) (vars : Vars) (defs : VarDefs)
    (c : Cache) : FragmentResult :=
  (diffFragment fuel sel vars defs "ROOT_QUERY" c.store).1

/-- The EntityKeys of the store's records, in order. -/
def storeKeys (st : Store) : List String := st.map Prod.fst

/-- The FieldStorageKeys of a record, in order. -/
def sfKeys : StoreFields → List String
  | .nil => []
  | .cons k _ rest => k :: sfKeys rest

/- Concrete scenario data mirroring the repository's test suite
(src/src/__tests__/ApolloClient.ts). -/

/-- Selection `{ a }`. -/
def selA : List Selection := [.field none "a" [] false none]

/-- Selection `{ b c }`. -/
def selBC : List Selection :=
  [.field none "b" [] false none, .field none "c" [] false none]

/-- Selection `{ a b c }`. -/
def selABC : List Selection :=
  [.field none "a" [] false none, .field none "b" [] false none,
   .field none "c" [] false none]

/-- Selection `a: field(literal: true, value: 42)  b: field(literal: $literal,
value: $value)` from the variables tests. -/
def selArgsQuery : List Selection :=
  [ .field (some "a") "field" [("literal", .lit (.b true)), ("value", .lit (.i 42))] false none,
    .field (some "b") "field" [("literal", .var "literal"), ("value", .var "value")] false none ]

/-- Selection `a: field(literal: $literal, value: $value)` from the
default-value tests. -/
def selDefaults : List Selection :=
  [ .field (some "a") "field" [("literal", .var "literal"), ("value", .var "value")] false none ]

/-- Variable declarations `($literal: Boolean, $value: Int = -1)`. -/
def defsWithDefault : VarDefs := [("literal", none), ("value", some (.i (-1)))]

/-- The canonical storage key `field({"literal":true,"value":42})`. -/
def keyLit42 : String := "field(\x7b\"literal\":true,\"value\":42\x7d)"

/-- The canonical storage key `field({"literal":false,"value":42})`. -/
def keyFalse42 : String := "field(\x7b\"literal\":false,\"value\":42\x7d)"

/-- The canonical storage key `field({"literal":false,"value":-1})`. -/
def keyFalseM1 : String := "field(\x7b\"literal\":false,\"value\":-1\x7d)"

/-- The selection of the nested query `{ a b foo { c d bar { id e f } } }`
used by the default-id-getter tests (with `addTypename: false`). -/
def selNestedNoTypename : List Selection :=
  [ .field none "a" [] false none,
    .field none "b" [] false none,
    .field none "foo" [] false (some
      [ .field none "c" [] false none,
        .field none "d" [] false none,
        .field none "bar" [] false (some
          [ .field none "id" [] false none,
            .field none "e" [] false none,
            .field none "f" [] false none ]) ]) ]

/-- The matching response data `{a: 1, b: 2, foo: {c: 3, d: 4, bar: {id:
"foobar", e: 5, f: 6}}}`, with no `__typename` anywhere. -/
def dataNestedNoTypename : DataFields :=
  .cons "a" (.scalar (.i 1)) (.cons "b" (.scalar (.i 2))
    (.cons "foo" (.obj (.cons "c" (.scalar (.i 3)) (.cons "d" (.scalar (.i 4))
      (.cons "bar" (.obj (.cons "id" (.scalar (.s "foobar"))
        (.cons "e" (.scalar (.i 5)) (.cons "f" (.scalar (.i 6)) .nil)))) .nil)))) .nil))

/-- The same nested query with `__typename` selected on the entities, as the
`addTypename` document transform produces. -/
def selNestedTyped : List Selection :=
  [ .field none "a" [] false none,
    .field none "b" [] false none,
    .field none "foo" [] false (some
      [ .field none "__typename" [] false none,
        .field none "c" [] false none,
        .field none "d" [] false none,
        .field none "bar" [] false (some
          [ .field none "__typename" [] false none,
            .field none "id" [] false none,
            .field none "e" [] false none,
            .field none "f" [] false none ]) ]) ]

/-- Response data where `bar` carries both `__typename: "bar"` and `id:
"foobar"` (so the built-in fallback identifies it as `bar:foobar`). -/
def dataNestedTyped : DataFields :=
  .cons "a" (.scalar (.i 1)) (.cons "b" (.scalar (.i 2))
    (.cons "foo" (.obj (.cons "__typename" (.scalar (.s "foo"))
      (.cons "c" (.scalar (.i 3)) (.cons "d" (.scalar (.i 4))
        (.cons "bar" (.obj (.cons "__typename" (.scalar (.s "bar"))
          (.cons "id" (.scalar (.s "foobar"))
            (.cons "e" (.scalar (.i 5)) (.cons "f" (.scalar (.i 6)) .nil)))))
          .nil))))) .nil))

/-- The fragment selection `{ __typename id text }` of `ItemFragment` (after
the `addTypename` transform). -/
def itemSel : List Selection :=
  [ .field none "__typename" [] false none,
    .field none "id" [] false none,
    .field none "text" [] false none ]

/-- The same fragment with `text @nonreactive`. -/
def itemSelNR : List Selection :=
  [ .field none "__typename" [] false none,
    .field none "id" [] false none,
    .field none "text" [] true none ]

/-- An `Item` response object `{__typename: "Item", id: 5, text: t}`. -/
def itemData (t : String) : DataFields :=
  .cons "__typename" (.scalar (.s "Item")) (.cons "id" (.scalar (.i 5))
    (.cons "text" (.scalar (.s t)) .nil))

/-- The cache after writing `Item #5` through `ItemFragment`. -/
def itemCache0 : Cache := writeFragmentAt 20 "Item:5" itemSel [] [] (itemData "Item #5") emptyCache

/-- The cache after additionally writing the edited text. -/
def itemCache1 : Cache :=
  writeFragmentAt 20 "Item:5" itemSel [] [] (itemData "Item #5 (edited)") itemCache0

/-- The live watcher over `ItemFragment` created against `itemCache0`. -/
def itemWatcher : Watcher :=
  { sel := itemSel, vars := [], defs := [], rootKey := "Item:5",
    last := (diffFragment 20 itemSel [] [] "Item:5" itemCache0.store).1,
    deps := (diffFragment 20 itemSel [] [] "Item:5" itemCache0.store).2 }

/-- The live watcher over the `@nonreactive` variant, against `itemCache0`. -/
def itemWatcherNR : Watcher :=
  { sel := itemSelNR, vars := [], defs := [], rootKey := "Item:5",
    last := (diffFragment 20 itemSelNR [] [] "Item:5" itemCache0.store).1,
    deps := (diffFragment 20 itemSelNR [] [] "Item:5" itemCache0.store).2 }

/-- A partial `Item` object `{__typename: "Item", id: 5}` without `text`. -/
def itemPartialData : DataFields :=
  .cons "__typename" (.scalar (.s "Item")) (.cons "id" (.scalar (.i 5)) .nil)

/-- The cache after writing only the partial `Item` object. -/
def itemCachePartial : Cache :=
  writeFragmentAt 20 "Item:5" itemSel [] [] itemPartialData emptyCache

/-- The fragment selection `fragment foo on Foo { __typename a: field(...)
b: field(...) }` of the writeFragment variables test. -/
def fooFragSel : List Selection :=
  [ .field none "__typename" [] false none,
    .field (some "a") "field" [("literal", .lit (.b true)), ("value", .lit (.i 42))] false none,
    .field (some "b") "field" [("literal", .var "literal"), ("value", .var "value")] false none ]

/-- The data `{__typename: "Foo", a: 1, b: 2}` of that test. -/
def fooFragData : DataFields :=
  .cons "__typename" (.scalar (.s "Foo")) (.cons "a" (.scalar (.i 1))
    (.cons "b" (.scalar (.i 2)) .nil))

/-- A two-fragment document (`fragment a on A {a}  fragment b on B {b}`). -/
def fragDoc2 : List FragmentDef :=
  [ { name := "a", typeCondition := "A", sel := [.field none "a" [] false none] },
    { name := "b", typeCondition := "B", sel := [.field none "b" [] false none] } ]

/-- A three-fragment document. -/
def fragDoc3 : List FragmentDef :=
  [ { name := "a", typeCondition := "A", sel := [.field none "a" [] false none] },
    { name := "b", typeCondition := "B", sel := [.field none "b" [] false none] },
    { name := "c", typeCondition := "C", sel := [.field none "c" [] false none] } ]

/-! ### General lemmas about record and store merging -/

theorem sfLookup_sfPut_self : ∀ (o : StoreFields) (k : String) (v : StoredValue),
    sfLookup (sfPut o k v) k = some v
  | .nil, k, v => by simp [sfPut, sfLookup]
  | .cons k' v' rest, k, v => by
    by_cases h : k' = k
    · simp [sfPut, sfLookup, h]
    · simp [sfPut, sfLookup, h, sfLookup_sfPut_self rest k v]

theorem sfLookup_sfPut_other : ∀ (o : StoreFields) (k key : String) (v : StoredValue),
    ¬ key = k → sfLookup (sfPut o k v) key = sfLookup o key
  | .nil, k, key, v, h => by
    have hk : ¬ k = key := fun hh => h hh.symm
    simp [sfPut, sfLookup, hk]
  | .cons k' v' rest, k, key, v, h => by
    by_cases hk : k' = k
    · subst hk
      have hkey : ¬ k' = key := fun hh => h hh.symm
      simp [sfPut, sfLookup, hkey]
    · simp [sfPut, sfLookup, hk, sfLookup_sfPut_other rest k key v h]

theorem sfLookup_sfMerge_none : ∀ (new : StoreFields) (old : StoreFields) (key : String),
    sfLookup new key = none → sfLookup (sfMerge old new) key = sfLookup old key
  | .nil, old, key, _ => by simp [sfMerge]
  | .cons k v rest, old, key, h => by
    by_cases hk : k = key
    · simp [sfLookup, hk] at h
    · simp only [sfLookup, if_neg hk] at h
      rw [show sfMerge old (.cons k v rest) = sfMerge (sfPut old k v) rest from rfl,
        sfLookup_sfMerge_none rest (sfPut old k v) key h,
        sfLookup_sfPut_other old k key v (fun hh => hk hh.symm)]

theorem sfLookup_eq_none_of_not_mem : ∀ (o : StoreFields) (key : String),
    key ∉ sfKeys o → sfLookup o key = none
  | .nil, key, _ => by simp [sfLookup]
  | .cons k v rest, key, h => by
    simp only [sfKeys, List.mem_cons, not_or] at h
    have hk : ¬ k = key := fun hh => h.1 hh.symm
    simp [sfLookup, hk, sfLookup_eq_none_of_not_mem rest key h.2]

theorem sfLookup_sfMerge_some : ∀ (new : StoreFields) (old : StoreFields) (key : String)
    (v : StoredValue), (sfKeys new).Nodup → sfLookup new key = some v →
    sfLookup (sfMerge old new) key = some v
  | .nil, old, key, v, _, h => by simp [sfLookup] at h
  | .cons k v' rest, old, key, v, hnd, h => by
    simp only [sfKeys, List.nodup_cons] at hnd
    by_cases hk : k = key
    · subst hk
      simp only [sfLookup, if_pos rfl] at h
      rw [show sfMerge old (.cons k v' rest) = sfMerge (sfPut old k v') rest from rfl,
        sfLookup_sfMerge_none rest (sfPut old k v') k
          (sfLookup_eq_none_of_not_mem rest k hnd.1),
        sfLookup_sfPut_self]
      exact h
    · simp only [sfLookup, if_neg hk] at h
      exact sfLookup_sfMerge_some rest (sfPut old k v') key v hnd.2 h

theorem lookupStr_storeMerge_present : ∀ (st : Store) (k : String) (o e : StoreFields),
    lookupStr st k = some e → lookupStr (storeMerge st k o) k = some (sfMerge e o)
  | [], k, o, e, h => by simp [lookupStr] at h
  | (k', o') :: rest, k, o, e, h => by
    by_cases hk : k' = k
    · subst hk
      simp only [lookupStr, if_pos rfl] at h
      cases h
      simp [storeMerge, lookupStr]
    · simp only [lookupStr, if_neg hk] at h
      simp [storeMerge, lookupStr, hk, lookupStr_storeMerge_present rest k o e h]

theorem lookupStr_storeMerge_absent : ∀ (st : Store) (k : String) (o : StoreFields),
    lookupStr st k = none → lookupStr (storeMerge st k o) k = some o
  | [], k, o, _ => by simp [storeMerge, lookupStr]
  | (k', o') :: rest, k, o, h => by
    by_cases hk : k' = k
    · simp [lookupStr, hk] at h
    · simp only [lookupStr, if_neg hk] at h
      simp [storeMerge, lookupStr, hk, lookupStr_storeMerge_absent rest k o h]

theorem lookupStr_storeMerge_other : ∀ (st : Store) (k key : String) (o : StoreFields),
    ¬ key = k → lookupStr (storeMerge st k o) key = lookupStr st key
  | [], k, key, o, h => by
    have hk : ¬ k = key := fun hh => h hh.symm
    simp [storeMerge, lookupStr, hk]
  | (k', o') :: rest, k, key, o, h => by
    by_cases hk : k' = k
    · subst hk
      have hne : ¬ k' = key := fun hh => h hh.symm
      simp [storeMerge, lookupStr, hne]
    · simp [storeMerge, lookupStr, hk, lookupStr_storeMerge_other rest k key o h]

theorem storeKeys_storeMerge : ∀ (st : Store) (k : String) (o : StoreFields),
    storeKeys (storeMerge st k o) =
      if k ∈ storeKeys st then storeKeys st else storeKeys st ++ [k]
  | [], k, o => by simp [storeMerge, storeKeys]
  | (k', o') :: rest, k, o => by
    by_cases hk : k' = k
    · subst hk
      simp [storeMerge, storeKeys]
    · have hne : ¬ k = k' := fun hh => hk hh.symm
      have ih := storeKeys_storeMerge rest k o
      simp only [storeKeys] at ih ⊢
      by_cases hmem : k ∈ List.map Prod.fst rest
      · simp only [storeMerge, if_neg hk, List.map_cons]
        rw [ih]
        simp [hmem, hne]
      · simp only [storeMerge, if_neg hk, List.map_cons]
        rw [ih]
        simp [hmem, hne]

theorem storeKeys_storeMerge_nodup (st : Store) (k : String) (o : StoreFields)
    (h : (storeKeys st).Nodup) : (storeKeys (storeMerge st k o)).Nodup := by
  rw [storeKeys_storeMerge]
  by_cases hmem : k ∈ storeKeys st
  · rw [if_pos hmem]
    exact h
  · rw [if_neg hmem]
    refine List.Nodup.append h (List.nodup_singleton k) ?_
    intro a ha hb
    simp only [List.mem_singleton] at hb
    subst hb
    exact hmem ha

theorem insertRootId_mem (ids : List String) (k : String) : k ∈ insertRootId ids k := by
  unfold insertRootId
  by_cases h : k ∈ ids
  · rw [if_pos h]
    exact h
  · simp [h]

/-! ### The dependency-frame property of the Reader

A read consults the store only through the dependencies it records: two stores
that agree on every recorded dependency produce identical read results.  This
is what makes the WatchBroadcaster's dependency test (§4.5) equivalent to
re-reading and comparing. -/

theorem depChanged_false_agree {old new : Store} {d : Dep}
    (h : depChanged old new d = false) : depAgree old new d := by
  cases d with
  | fieldDep k f =>
    simp only [depChanged, decide_eq_false_iff_not, not_not] at h
    exact h
  | entityDep k =>
    simp only [depChanged, decide_eq_false_iff_not, not_not] at h
    exact h

theorem readerFrame : ∀ fuel : Nat,
    (∀ (sub : Option (List Selection)) (vars : Vars) (defs : VarDefs)
        (label : String) (sv : StoredValue) (st st' : Store),
      arV fuel sub = true →
      (∀ d ∈ (readValue fuel sub vars defs label sv st).2, depAgree st st' d) →
      readValue fuel sub vars defs label sv st' =
        readValue fuel sub vars defs label sv st)
    ∧ (∀ (sub : Option (List Selection)) (vars : Vars) (defs : VarDefs)
        (label : String) (items : StoreList) (st st' : Store),
      arL fuel sub = true →
      (∀ d ∈ (readList fuel sub vars defs label items st).2, depAgree st st' d) →
      readList fuel sub vars defs label items st' =
        readList fuel sub vars defs label items st)
    ∧ (∀ (sel : List Selection) (vars : Vars) (defs : VarDefs)
        (depKey : Option String) (label : String) (o o' : StoreFields) (st st' : Store),
      arO fuel sel = true →
      keyHyp depKey o o' st st' →
      (∀ d ∈ (readObj fuel sel vars defs depKey label o st).2.2, depAgree st st' d) →
      readObj fuel sel vars defs depKey label o' st' =
        readObj fuel sel vars defs depKey label o st) := by
  intro fuel
  induction fuel with
  | zero =>
    refine ⟨?_, ?_, ?_⟩
    · intro sub vars defs label sv st st' _ _
      simp [readValue]
    · intro sub vars defs label items st st' _ _
      simp [readList]
    · intro sel vars defs depKey label o o' st st' _ _ _
      simp [readObj]
  | succ fuel ih =>
    obtain ⟨ihV, ihL, ihO⟩ := ih
    refine ⟨?_, ?_, ?_⟩
    · -- readValue
      intro sub vars defs label sv st st' har hag
      cases sub with
      | none => simp [readValue]
      | some sel =>
        simp only [arV, Bool.and_eq_true] at har
        cases sv with
        | scalar v => simp [readValue]
        | inline f =>
          simp only [readValue] at hag ⊢
          rw [ihO sel vars defs none label f f st st' har.1 rfl hag]
        | arr items =>
          simp only [readValue] at hag ⊢
          rw [ihL (some sel) vars defs label items st st' har.2 hag]
        | ref k =>
          rcases h1 : lookupStr st k with _ | o
          · have hagk : depAgree st st' (Dep.entityDep k) :=
              hag (Dep.entityDep k) (by simp [readValue, h1])
            have h2 : lookupStr st' k = none := by
              simp only [depAgree, h1, Option.isSome_none] at hagk
              rcases hx : lookupStr st' k with _ | u
              · rfl
              · rw [hx] at hagk
                simp at hagk
            simp [readValue, h1, h2]
          · have hagk : depAgree st st' (Dep.entityDep k) :=
              hag (Dep.entityDep k) (by simp [readValue, h1])
            have h2 : ∃ u, lookupStr st' k = some u := by
              simp only [depAgree, h1, Option.isSome_some] at hagk
              rcases hx : lookupStr st' k with _ | u
              · rw [hx] at hagk
                simp at hagk
              · exact ⟨u, rfl⟩
            obtain ⟨u, h2⟩ := h2
            have hsubag : ∀ d ∈ (readObj fuel sel vars defs (some k) k o st).2.2,
                depAgree st st' d := by
              intro d hd
              exact hag d (by simp [readValue, h1, hd])
            have hobj := ihO sel vars defs (some k) k o u st st' har.1 ⟨h1, h2⟩ hsubag
            simp only [readValue, h1, h2]
            rw [hobj]
    · -- readList
      intro sub vars defs label items st st' har hag
      simp only [arL, Bool.and_eq_true] at har
      cases items with
      | nil => simp [readList]
      | cons v rest =>
        have hag1 : ∀ d ∈ (readValue fuel sub vars defs label v st).2, depAgree st st' d := by
          intro d hd
          exact hag d (by
            simp only [readList]
            exact List.mem_append_left _ hd)
        have hag2 : ∀ d ∈ (readList fuel sub vars defs label rest st).2, depAgree st st' d := by
          intro d hd
          exact hag d (by
            simp only [readList]
            exact List.mem_append_right _ hd)
        simp only [readList]
        rw [ihV sub vars defs label v st st' har.1 hag1,
          ihL sub vars defs label rest st st' har.2 hag2]
    · -- readObj
      intro sel vars defs depKey label o o' st st' har hkey hag
      cases sel with
      | nil => simp [readObj]
      | cons f rest =>
        cases f with
        | field al name args nonreactive sub =>
          simp only [arO, Bool.and_eq_true] at har
          have hnr : nonreactive = false := by simpa using har.1.1
          subst hnr
          have harV : arV fuel sub = true := har.1.2
          have harO : arO fuel rest = true := har.2
          have hsf : sfLookup o' (storeFieldName vars defs name args) =
              sfLookup o (storeFieldName vars defs name args) := by
            cases depKey with
            | none =>
              have ho : o' = o := hkey
              rw [ho]
            | some k =>
              obtain ⟨hk, hk'⟩ := hkey
              have hmem : Dep.fieldDep k (storeFieldName vars defs name args) ∈
                  (readObj (fuel + 1) (.field al name args false sub :: rest)
                    vars defs (some k) label o st).2.2 := by
                rcases hv : sfLookup o (storeFieldName vars defs name args) with _ | sv <;>
                  simp [readObj, hv]
              have hagf := hag _ hmem
              simp only [depAgree, lookupField, hk, hk', Option.bind_some] at hagf
              exact hagf.symm
          have hrest : readObj fuel rest vars defs depKey label o' st' =
              readObj fuel rest vars defs depKey label o st := by
            apply ihO rest vars defs depKey label o o' st st' harO hkey
            intro d hd
            apply hag
            rcases hv : sfLookup o (storeFieldName vars defs name args) with _ | sv <;>
              simp [readObj, hv, hd]
          rcases hv : sfLookup o (storeFieldName vars defs name args) with _ | sv
          · have hv' : sfLookup o' (storeFieldName vars defs name args) = none := by
              rw [hsf, hv]
            simp only [readObj, hv, hv']
            rw [hrest]
          · have hv' : sfLookup o' (storeFieldName vars defs name args) = some sv := by
              rw [hsf, hv]
            have hagv : ∀ d ∈ (readValue fuel sub vars defs label sv st).2,
                depAgree st st' d := by
              intro d hd
              apply hag
              simp [readObj, hv, hd]
            have hval := ihV sub vars defs label sv st st' harV hagv
            simp only [readObj, hv, hv']
            rw [hval, hrest]

theorem diffFragment_frame (fuel : Nat) (sel : List Selection) (vars : Vars)
    (defs : VarDefs) (k : String) (st st' : Store)
    (har : arO fuel sel = true)
    (hag : ∀ d ∈ (diffFragment fuel sel vars defs k st).2, depAgree st st' d) :
    diffFragment fuel sel vars defs k st' = diffFragment fuel sel vars defs k st := by
  rcases h1 : lookupStr st k with _ | o
  · have hagk : depAgree st st' (Dep.entityDep k) :=
      hag (Dep.entityDep k) (by simp [diffFragment, h1])
    have h2 : lookupStr st' k = none := by
      simp only [depAgree, h1, Option.isSome_none] at hagk
      rcases hx : lookupStr st' k with _ | u
      · rfl
      · rw [hx] at hagk
        simp at hagk
    simp [diffFragment, h1, h2]
  · have hagk : depAgree st st' (Dep.entityDep k) :=
      hag (Dep.entityDep k) (by simp [diffFragment, h1])
    have h2 : ∃ u, lookupStr st' k = some u := by
      simp only [depAgree, h1, Option.isSome_some] at hagk
      rcases hx : lookupStr st' k with _ | u
      · rw [hx] at hagk
        simp at hagk
      · exact ⟨u, rfl⟩
    obtain ⟨u, h2⟩ := h2
    have hsubag : ∀ d ∈ (readObj fuel sel vars defs (some k) k o st).2.2,
        depAgree st st' d := by
      intro d hd
      exact hag d (by simp [diffFragment, h1, hd])
    have hobj := (readerFrame fuel).2.2 sel vars defs (some k) k o u st st' har ⟨h1, h2⟩ hsubag
    simp only [diffFragment, h1, h2]
    rw [hobj]

/-! ### The claims -/

/-- C1: the FieldStorageKey of a field depends only on the field name and the
resolved argument values, not on whether the arguments were written as
literals or supplied through variables; concretely, `field(literal: true,
value: 42)` and `field(literal: $literal, value: $value)` under
`{literal: true, value: 42}` both produce the key
`field({"literal":true,"value":42})`, and a value written through the literal
form is read back through the variable form from that single key. -/
theorem C1_fieldKey_canonicalization :
    (∀ (name : String) (args1 args2 : List (String × ArgSource))
        (vars1 vars2 : Vars) (defs1 defs2 : VarDefs),
      resolveArgs vars1 defs1 args1 = resolveArgs vars2 defs2 args2 →
      storeFieldName vars1 defs1 name args1 = storeFieldName vars2 defs2 name args2)
    ∧ storeFieldName [] [] "field"
        [("literal", .lit (.b true)), ("value", .lit (.i 42))] = keyLit42
    ∧ storeFieldName [("literal", .b true), ("value", .i 42)] [] "field"
        [("literal", .var "literal"), ("value", .var "value")] = keyLit42
    ∧ (writeQuery 20 selArgsQuery [("literal", .b false), ("value", .i 42)] []
        (.cons "a" (.scalar (.i 1)) (.cons "b" (.scalar (.i 2)) .nil)) emptyCache).store =
      [("ROOT_QUERY", .cons "__typename" (.scalar (.s "Query"))
        (.cons keyLit42 (.scalar (.i 1)) (.cons keyFalse42 (.scalar (.i 2)) .nil)))]
    ∧ readQuery 20 [.field (some "b") "field"
          [("literal", .var "literal"), ("value", .var "value")] false none]
        [("literal", .b true), ("value", .i 42)] []
        (writeQuery 20 [.field (some "a") "field"
            [("literal", .lit (.b true)), ("value", .lit (.i 42))] false none] [] []
          (.cons "a" (.scalar (.i 1)) .nil) emptyCache) =
      { data := .cons "b" (.scalar (.i 1)) .nil, complete := true, missing := none } := by
  refine ⟨fun name args1 args2 vars1 vars2 defs1 defs2 h => ?_, rfl, rfl, rfl, rfl⟩
  unfold storeFieldName
  rw [h]

/-- C1 witness: the two concrete argument forms of the tests resolve equally,
so the general canonicalization statement yields their key equality. -/
theorem C1_fieldKey_canonicalization_witness :
    storeFieldName [] [] "field" [("literal", .lit (.b true)), ("value", .lit (.i 42))] =
      storeFieldName [("literal", .b true), ("value", .i 42)] [] "field"
        [("literal", .var "literal"), ("value", .var "value")] :=
  C1_fieldKey_canonicalization.1 "field" _ _ [] [("literal", .b true), ("value", .i 42)]
    [] [] rfl

/-- C2: the built-in identity fallback assigns an EntityKey only when
`__typename` and one of `id`/`_id` are both present; without `__typename` an
object is never identified (whatever `id`/`_id` say) and the Writer keeps it
inline inside its parent field, while with `__typename` and `id` present the
object becomes its own `typename:id` entity referenced from the parent. -/
theorem C2_default_id_requires_typename :
    (∀ fields : DataFields, dfLookup fields "__typename" = none →
      defaultDataIdFromObject fields = none)
    ∧ defaultDataIdFromObject (.cons "id" (.scalar (.s "foobar")) .nil) = none
    ∧ defaultDataIdFromObject (.cons "__typename" (.scalar (.s "bar"))
        (.cons "id" (.scalar (.s "foobar")) .nil)) = some "bar:foobar"
    ∧ defaultDataIdFromObject (.cons "__typename" (.scalar (.s "foo"))
        (.cons "_id" (.scalar (.s "barfoo")) .nil)) = some "foo:barfoo"
    ∧ (writeQuery 20 selNestedNoTypename [] [] dataNestedNoTypename emptyCache).store =
      [("ROOT_QUERY", .cons "__typename" (.scalar (.s "Query"))
        (.cons "a" (.scalar (.i 1)) (.cons "b" (.scalar (.i 2))
          (.cons "foo" (.inline (.cons "c" (.scalar (.i 3)) (.cons "d" (.scalar (.i 4))
            (.cons "bar" (.inline (.cons "id" (.scalar (.s "foobar"))
              (.cons "e" (.scalar (.i 5)) (.cons "f" (.scalar (.i 6)) .nil))))
              .nil)))) .nil))))]
    ∧ (writeQuery 20 selNestedTyped [] [] dataNestedTyped emptyCache).store =
      [ ("bar:foobar", .cons "__typename" (.scalar (.s "bar"))
          (.cons "id" (.scalar (.s "foobar"))
            (.cons "e" (.scalar (.i 5)) (.cons "f" (.scalar (.i 6)) .nil)))),
        ("ROOT_QUERY", .cons "__typename" (.scalar (.s "Query"))
          (.cons "a" (.scalar (.i 1)) (.cons "b" (.scalar (.i 2))
            (.cons "foo" (.inline (.cons "__typename" (.scalar (.s "foo"))
              (.cons "c" (.scalar (.i 3)) (.cons "d" (.scalar (.i 4))
                (.cons "bar" (.ref "bar:foobar") .nil)))))
              .nil)))) ] := by
  refine ⟨fun fields h => ?_, rfl, rfl, rfl, rfl, rfl⟩
  simp [defaultDataIdFromObject, h]

/-- C2 witness: an object carrying `id` but no `__typename` gets no default
EntityKey. -/
theorem C2_default_id_requires_typename_witness :
    defaultDataIdFromObject (.cons "id" (.scalar (.s "foobar"))
      (.cons "e" (.scalar (.i 5)) .nil)) = none :=
  C2_default_id_requires_typename.1 _ rfl

/-- C3: resolving a fragment document with `n ≠ 1` fragments and no
`fragmentName` makes both `readFragment` and `writeFragment` fail with an
error stating the count found, before anything is written (the operation
returns only the error, never a cache). -/
theorem C3_fragment_count_errors :
    (∀ (doc : List FragmentDef) (fuel : Nat) (k : String) (vars : Vars)
        (defs : VarDefs) (data : DataFields) (c : Cache),
      doc.length ≠ 1 →
      clientWriteFragment fuel doc none k vars defs data c =
        .error ("Found " ++ Nat.repr doc.length ++
          " fragments. `fragmentName` must be provided when there is not exactly 1 fragment.")
      ∧ clientReadFragment fuel doc none k vars defs c =
        .error ("Found " ++ Nat.repr doc.length ++
          " fragments. `fragmentName` must be provided when there is not exactly 1 fragment."))
    ∧ resolveFragment ([] : List FragmentDef) none =
      .error "Found 0 fragments. `fragmentName` must be provided when there is not exactly 1 fragment."
    ∧ resolveFragment fragDoc2 none =
      .error "Found 2 fragments. `fragmentName` must be provided when there is not exactly 1 fragment."
    ∧ resolveFragment fragDoc3 none =
      .error "Found 3 fragments. `fragmentName` must be provided when there is not exactly 1 fragment." := by
  refine ⟨fun doc fuel k vars defs data c h => ?_, rfl, rfl, rfl⟩
  match doc with
  | [] => exact ⟨rfl, rfl⟩
  | [f] => exact absurd rfl h
  | f1 :: f2 :: rest => exact ⟨rfl, rfl⟩

/-- C3 witness: the two-fragment document without a fragment name fails both
operations with the message naming the count 2. -/
theorem C3_fragment_count_errors_witness :
    clientWriteFragment 20 fragDoc2 none "x" [] [] .nil emptyCache =
      .error ("Found " ++ Nat.repr (fragDoc2.length) ++
        " fragments. `fragmentName` must be provided when there is not exactly 1 fragment.") :=
  (C3_fragment_count_errors.1 fragDoc2 20 "x" [] [] .nil emptyCache (by decide)).1

/-- C4: an argument sourced from a variable that is absent from the supplied
variables falls back to the field's declared default when computing the
FieldStorageKey; concretely, writing with variables `{literal: false}` under
`($value: Int = -1)` stores under `field({"literal":false,"value":-1})` and a
later read with the variable omitted resolves the same key. -/
theorem C4_default_variable_values :
    (∀ (vars : Vars) (defs : VarDefs) (n : String) (d : ScalarValue),
      lookupStr vars n = none → lookupStr defs n = some (some d) →
      resolveArg vars defs (.var n) = some d)
    ∧ storeFieldName [("literal", .b false)] defsWithDefault "field"
        [("literal", .var "literal"), ("value", .var "value")] = keyFalseM1
    ∧ (writeQuery 20 selDefaults [("literal", .b false)] defsWithDefault
        (.cons "a" (.scalar (.i 1)) .nil) emptyCache).store =
      [("ROOT_QUERY", .cons "__typename" (.scalar (.s "Query"))
        (.cons keyFalseM1 (.scalar (.i 1)) .nil))]
    ∧ readQuery 20 selDefaults [("literal", .b false)] defsWithDefault
        (writeQuery 20 selDefaults [("literal", .b false)] defsWithDefault
          (.cons "a" (.scalar (.i 1)) .nil) emptyCache) =
      { data := .cons "a" (.scalar (.i 1)) .nil, complete := true, missing := none } := by
  refine ⟨fun vars defs n d h1 h2 => ?_, rfl, rfl, rfl⟩
  simp [resolveArg, h1, h2]

/-- C4 witness: the omitted `$value` variable of the concrete test resolves to
the declared default `-1`. -/
theorem C4_default_variable_values_witness :
    resolveArg [("literal", .b false)] defsWithDefault (.var "value") = some (.i (-1)) :=
  C4_default_variable_values.1 [("literal", .b false)] defsWithDefault "value" (.i (-1))
    rfl rfl

/-- C5: a second write to an existing EntityKey merges field-by-field into the
existing record — written fields overwrite, untouched fields survive, and no
duplicate record is created; concretely, writing `{a: 1}` for `{ a }` and then
`{b: 2, c: 3}` for `{ b c }` leaves a single `ROOT_QUERY` record holding all
three fields, and reading `{ a b c }` returns `{a: 1, b: 2, c: 3}`
complete. -/
theorem C5_same_entity_merge :
    (∀ (st : Store) (k key : String) (o e : StoreFields) (v : StoredValue),
      lookupStr st k = some e →
      lookupStr (storeMerge st k o) k = some (sfMerge e o)
      ∧ (sfLookup o key = none → sfLookup (sfMerge e o) key = sfLookup e key)
      ∧ ((sfKeys o).Nodup → sfLookup o key = some v →
          sfLookup (sfMerge e o) key = some v))
    ∧ (∀ (st : Store) (k : String) (o : StoreFields),
      (storeKeys st).Nodup → (storeKeys (storeMerge st k o)).Nodup)
    ∧ (writeQuery 20 selBC [] [] (.cons "b" (.scalar (.i 2)) (.cons "c" (.scalar (.i 3)) .nil))
        (writeQuery 20 selA [] [] (.cons "a" (.scalar (.i 1)) .nil) emptyCache)).store =
      [("ROOT_QUERY", .cons "__typename" (.scalar (.s "Query"))
        (.cons "a" (.scalar (.i 1)) (.cons "b" (.scalar (.i 2))
          (.cons "c" (.scalar (.i 3)) .nil))))]
    ∧ readQuery 20 selABC [] []
        (writeQuery 20 selBC [] [] (.cons "b" (.scalar (.i 2)) (.cons "c" (.scalar (.i 3)) .nil))
          (writeQuery 20 selA [] [] (.cons "a" (.scalar (.i 1)) .nil) emptyCache)) =
      { data := .cons "a" (.scalar (.i 1)) (.cons "b" (.scalar (.i 2))
          (.cons "c" (.scalar (.i 3)) .nil)),
        complete := true, missing := none } := by
  refine ⟨fun st k key o e v h => ⟨lookupStr_storeMerge_present st k o e h,
      fun hnone => sfLookup_sfMerge_none o e key hnone,
      fun hnd hsome => sfLookup_sfMerge_some o e key v hnd hsome⟩,
    fun st k o h => storeKeys_storeMerge_nodup st k o h, rfl, rfl⟩

/-- C5 witness: instantiating the merge statement on a concrete one-entity
store shows the second write lands in the existing record. -/
theorem C5_same_entity_merge_witness :
    lookupStr (storeMerge [("ROOT_QUERY", StoreFields.cons "a" (.scalar (.i 1)) .nil)]
        "ROOT_QUERY" (.cons "b" (.scalar (.i 2)) .nil)) "ROOT_QUERY" =
      some (sfMerge (.cons "a" (.scalar (.i 1)) .nil) (.cons "b" (.scalar (.i 2)) .nil)) :=
  (C5_same_entity_merge.1 [("ROOT_QUERY", .cons "a" (.scalar (.i 1)) .nil)]
    "ROOT_QUERY" "b" (.cons "b" (.scalar (.i 2)) .nil)
    (.cons "a" (.scalar (.i 1)) .nil) (.scalar (.i 2)) rfl).1

/-- C10: every `writeFragment` that targets an explicit entity id registers
that id in the extra-root set, and the registration is visible in the
extracted snapshot; concretely, after the variables writeFragment test on an
empty cache, `extract()` reports `extraRootIds = ["foo"]` alongside the `foo`
record keyed by the canonical argument keys. -/
theorem C10_extraRootIds_registration :
    (∀ (fuel : Nat) (k : String) (sel : List Selection) (vars : Vars)
        (defs : VarDefs) (data : DataFields) (c : Cache),
      k ∈ (extract (writeFragmentAt fuel k sel vars defs data c)).metaExtraRootIds)
    ∧ extract (writeFragmentAt 20 "foo" fooFragSel
        [("literal", .b false), ("value", .i 42)] [] fooFragData emptyCache) =
      { entities := [("foo", .cons "__typename" (.scalar (.s "Foo"))
          (.cons keyLit42 (.scalar (.i 1)) (.cons keyFalse42 (.scalar (.i 2)) .nil)))],
        metaExtraRootIds := ["foo"] } := by
  exact ⟨fun fuel k sel vars defs data c => insertRootId_mem c.extraRootIds k, rfl⟩

/-- C10 witness: the registration statement applied to the concrete `foo`
write. -/
theorem C10_extraRootIds_registration_witness :
    "foo" ∈ (extract (writeFragmentAt 20 "foo" fooFragSel
      [("literal", .b false), ("value", .i 42)] [] fooFragData emptyCache)).metaExtraRootIds :=
  C10_extraRootIds_registration.1 20 "foo" fooFragSel
    [("literal", .b false), ("value", .i 42)] [] fooFragData emptyCache

/-- C6: resolving a Reference (or a watched fragment root) whose EntityKey is
absent from the store never throws: the Reader records the dangling-reference
message identifying the key, omits the value, and marks the read incomplete;
concretely, watching unwritten `Item:5` first yields empty data,
`complete = false` and exactly the message `Dangling reference to missing
Item:5 object`. -/
theorem C6_dangling_reference :
    (∀ (fuel : Nat) (sel : List Selection) (vars : Vars) (defs : VarDefs)
        (label k : String) (st : Store),
      lookupStr st k = none →
      readValue (fuel + 1) (some sel) vars defs label (.ref k) st =
        (.error (danglingMsg k), [.entityDep k])
      ∧ diffFragment fuel sel vars defs k st =
        ({ data := .nil, complete := false, missing := some (.msg (danglingMsg k)) },
         [.entityDep k]))
    ∧ (diffFragment 20 itemSel [] [] "Item:5" emptyCache.store).1 =
      { data := .nil, complete := false,
        missing := some (.msg "Dangling reference to missing Item:5 object") }
    ∧ danglingMsg "Item:5" = "Dangling reference to missing Item:5 object" := by
  refine ⟨fun fuel sel vars defs label k st h => ⟨?_, ?_⟩, rfl, rfl⟩
  · simp [readValue, h]
  · simp [diffFragment, h]

/-- C6 witness: the general dangling statement applied at the concrete key of
the test. -/
theorem C6_dangling_reference_witness :
    readValue 1 (some itemSel) [] [] "Item:5" (.ref "Item:5") emptyCache.store =
      (.error (danglingMsg "Item:5"), [.entityDep "Item:5"]) :=
  (C6_dangling_reference.1 0 itemSel [] [] "Item:5" "Item:5" emptyCache.store rfl).1

/-- C7: a selected field with no stored value on the resolved entity is
reported in `missing` with the message naming both the field key and the
EntityKey, while every present field is still returned in `data`; concretely,
after writing only `{__typename: "Item", id: 5}`, watching `{id, text}` yields
the partial data, `complete = false` and `missing.text = "Can't find field
'text' on Item:5 object"`. -/
theorem C7_missing_field_report :
    (∀ (fuel : Nat) (al : Option String) (name : String)
        (args : List (String × ArgSource)) (sub : Option (List Selection))
        (rest : List Selection) (vars : Vars) (defs : VarDefs) (k label : String)
        (o : StoreFields) (st : Store),
      sfLookup o (storeFieldName vars defs name args) = none →
      (readObj (fuel + 1) (.field al name args false sub :: rest) vars defs
          (some k) label o st).1 =
        (readObj fuel rest vars defs (some k) label o st).1
      ∧ (readObj (fuel + 1) (.field al name args false sub :: rest) vars defs
          (some k) label o st).2.1 =
        (responseName al name,
          cantFindMsg (storeFieldName vars defs name args) label) ::
          (readObj fuel rest vars defs (some k) label o st).2.1)
    ∧ (diffFragment 20 itemSel [] [] "Item:5" itemCachePartial.store).1 =
      { data := .cons "__typename" (.scalar (.s "Item")) (.cons "id" (.scalar (.i 5)) .nil),
        complete := false,
        missing := some (.fields [("text", "Can\x27t find field \x27text\x27 on Item:5 object")]) }
    ∧ cantFindMsg "text" "Item:5" = "Can\x27t find field \x27text\x27 on Item:5 object" := by
  refine ⟨fun fuel al name args sub rest vars defs k label o st h => ⟨?_, ?_⟩, rfl, rfl⟩
  · simp [readObj, h]
  · simp [readObj, h]

/-- C7 witness: the general missing-field statement applied to an entity
record holding no `text` field. -/
theorem C7_missing_field_report_witness :
    (readObj 1 [.field none "text" [] false none] [] [] (some "Item:5") "Item:5"
        (.cons "id" (.scalar (.i 5)) .nil) []).2.1 =
      ("text", cantFindMsg "text" "Item:5") ::
        (readObj 0 [] [] [] (some "Item:5") "Item:5"
          (.cons "id" (.scalar (.i 5)) .nil) []).2.1 :=
  (C7_missing_field_report.1 0 none "text" [] none [] [] [] "Item:5" "Item:5"
    (.cons "id" (.scalar (.i 5)) .nil) [] rfl).2

/-- C9: a field marked `@nonreactive` is read like any other field — same
`data`, same missing report, hence the same completeness — but contributes
nothing to the dependency set, so a later write that changes only that field
triggers no new emission; concretely, watching `{id, text @nonreactive}`
first emits the stored text with `complete = true`, its dependency set lacks
the `text` field, and the edit of `text` produces no notification. -/
theorem C9_nonreactive_directive :
    (∀ (fuel : Nat) (al : Option String) (name : String)
        (args : List (String × ArgSource)) (sub : Option (List Selection))
        (rest : List Selection) (vars : Vars) (defs : VarDefs) (k label : String)
        (o : StoreFields) (st : Store),
      (readObj (fuel + 1) (.field al name args true sub :: rest) vars defs
          (some k) label o st).1 =
        (readObj (fuel + 1) (.field al name args false sub :: rest) vars defs
          (some k) label o st).1
      ∧ (readObj (fuel + 1) (.field al name args true sub :: rest) vars defs
          (some k) label o st).2.1 =
        (readObj (fuel + 1) (.field al name args false sub :: rest) vars defs
          (some k) label o st).2.1
      ∧ (readObj (fuel + 1) (.field al name args true sub :: rest) vars defs
          (some k) label o st).2.2 =
        (readObj fuel rest vars defs (some k) label o st).2.2)
    ∧ (diffFragment 20 itemSelNR [] [] "Item:5" itemCache0.store).1 =
      { data := .cons "__typename" (.scalar (.s "Item")) (.cons "id" (.scalar (.i 5))
          (.cons "text" (.scalar (.s "Item #5")) .nil)),
        complete := true, missing := none }
    ∧ (diffFragment 20 itemSelNR [] [] "Item:5" itemCache0.store).2 =
      [.entityDep "Item:5", .fieldDep "Item:5" "__typename", .fieldDep "Item:5" "id"]
    ∧ notifyWrite 20 itemWatcherNR itemCache0.store itemCache1.store = none := by
  refine ⟨fun fuel al name args sub rest vars defs k label o st => ?_, rfl, rfl, rfl⟩
  rcases hv : sfLookup o (storeFieldName vars defs name args) with _ | sv
  · exact ⟨by simp [readObj, hv], by simp [readObj, hv], by simp [readObj, hv]⟩
  · rcases hr : (readValue fuel sub vars defs label sv st).1 with e | p
    · exact ⟨by simp [readObj, hv, hr], by simp [readObj, hv, hr], by simp [readObj, hv, hr]⟩
    · exact ⟨by simp [readObj, hv, hr], by simp [readObj, hv, hr], by simp [readObj, hv, hr]⟩

/-- C8: after a write batch, a live watcher (over a fully reactive selection,
with its last result and dependency set recorded from the pre-write store) is
delivered a new result exactly when re-reading against the post-write store
differs from the previously delivered result, and the delivered result is
that re-read; concretely, the edit of `text` produces one emission carrying
the updated data, and a batch that changes nothing a watcher depends on
produces no emission. -/
theorem C8_broadcast_iff_changed :
    (∀ (fuel : Nat) (w : Watcher) (old new : Store),
      w.deps = (diffFragment fuel w.sel w.vars w.defs w.rootKey old).2 →
      w.last = (diffFragment fuel w.sel w.vars w.defs w.rootKey old).1 →
      arO fuel w.sel = true →
      notifyWrite fuel w old new =
        (if (diffFragment fuel w.sel w.vars w.defs w.rootKey new).1 = w.last then none
         else some (diffFragment fuel w.sel w.vars w.defs w.rootKey new).1))
    ∧ notifyWrite 20 itemWatcher itemCache0.store itemCache1.store =
      some { data := .cons "__typename" (.scalar (.s "Item"))
                       (.cons "id" (.scalar (.i 5))
                         (.cons "text" (.scalar (.s "Item #5 (edited)")) .nil)),
             complete := true, missing := none }
    ∧ notifyWrite 20 itemWatcher itemCache0.store itemCache0.store = none := by
  refine ⟨fun fuel w old new hdeps hlast har => ?_, rfl, rfl⟩
  by_cases hany : w.deps.any (depChanged old new) = true
  · simp [notifyWrite, hany]
  · rw [Bool.not_eq_true] at hany
    have hall : ∀ d ∈ w.deps, depChanged old new d = false := by
      intro d hd
      rcases hb : depChanged old new d with _ | _
      · rfl
      · exact absurd (List.any_eq_true.mpr ⟨d, hd, hb⟩) (by simp [hany])
    have hag : ∀ d ∈ (diffFragment fuel w.sel w.vars w.defs w.rootKey old).2,
        depAgree old new d := by
      intro d hd
      exact depChanged_false_agree (hall d (hdeps ▸ hd))
    have heq := diffFragment_frame fuel w.sel w.vars w.defs w.rootKey old new har hag
    simp [notifyWrite, hany, heq, ← hlast]

/-- C8 witness: the broadcast characterization applied to the concrete
`ItemFragment` watcher, whose recorded state comes from the pre-write
store. -/
theorem C8_broadcast_iff_changed_witness :
    notifyWrite 20 itemWatcher itemCache0.store itemCache1.store =
      (if (diffFragment 20 itemWatcher.sel itemWatcher.vars itemWatcher.defs
            itemWatcher.rootKey itemCache1.store).1 = itemWatcher.last then none
       else some (diffFragment 20 itemWatcher.sel itemWatcher.vars itemWatcher.defs
            itemWatcher.rootKey itemCache1.store).1) :=
  C8_broadcast_iff_changed.1 20 itemWatcher itemCache0.store itemCache1.store rfl rfl rfl

/-- C9 witness: the dependency-exclusion statement applied to the concrete
`text @nonreactive` field on the written `Item:5` record. -/
theorem C9_nonreactive_directive_witness :
    (readObj 1 [.field none "text" [] true none] [] [] (some "Item:5") "Item:5"
        (.cons "text" (.scalar (.s "Item #5")) .nil) []).2.2 =
      (readObj 0 [] [] [] (some "Item:5") "Item:5"
        (.cons "text" (.scalar (.s "Item #5")) .nil) []).2.2 :=
  (C9_nonreactive_directive.1 0 none "text" [] none [] [] [] "Item:5" "Item:5"
    (.cons "text" (.scalar (.s "Item #5")) .nil) []).2.2

end ApolloCache
